import Mathlib

/-!
Verification of the common-source to common-gate S-parameter converter
(CS_To_CG_S_Params.py).

The program reads a 9-column S-parameter file (frequency plus four
magnitude/phase pairs in the order S11, S21, S12, S22), converts each row
independently through the chain

  polar to rectangular
  scattering to admittance            (del6, lines 56-60)
  topology transform CS to CG         (lines 62-65)
  admittance to scattering            (del2, lines 67-71)
  scattering to impedance, times Z0   (del5, lines 73-77)
  series inductor injection           (lines 79-83)
  normalization by Z0                 (lines 85-88)
  impedance to scattering             (del4, lines 90-94)
  rectangular to polar output         (lines 96-104)

and writes one 9-column output row per input row.  Floating point
arithmetic is embedded as exact real / complex arithmetic; numpy complex
numbers become Lean Complex values, np.abs becomes Complex.abs and
np.angle (degrees) becomes arg scaled by 180 / pi.
-/

open Complex

noncomputable section

/-- Four complex entries of a 2x2 two-port matrix in one parameter
domain (S, Y or Z).  Mirrors the four local variables the source keeps
per stage. -/
@[ext]
structure ComplexTwoPort where
  p11 : Complex
  p12 : Complex
  p21 : Complex
  p22 : Complex

/-- Polar to rectangular reconstruction, lines 51-54:
mag * exp(1j * phaseDeg * pi / 180). -/
def polarRect (mag phaseDeg : Real) : Complex :=
  (mag : Complex) * Complex.exp (Complex.I * (phaseDeg : Complex) * (Real.pi : Complex) / 180)

/-- Determinant del6 (and the identically shaped del2), line 56 / 67:
(1 + p11) * (1 + p22) - p12 * p21. -/
def delSY (s : ComplexTwoPort) : Complex :=
  (1 + s.p11) * (1 + s.p22) - s.p12 * s.p21

/-- Scattering to admittance conversion, lines 56-60 of the source. -/
def sToY (s : ComplexTwoPort) : ComplexTwoPort :=
  { p11 := ((1 - s.p11) * (1 + s.p22) + s.p12 * s.p21) / delSY s
    p12 := -2 * s.p12 / delSY s
    p21 := -2 * s.p21 / delSY s
    p22 := ((1 + s.p11) * (1 - s.p22) + s.p12 * s.p21) / delSY s }

/-- Topology transform from common-source to common-gate admittance
parameters, lines 62-65 of the source. -/
def topologyTransform (y : ComplexTwoPort) : ComplexTwoPort :=
  { p11 := y.p11 + y.p12 + y.p21 + y.p22
    p12 := -(y.p12 + y.p22)
    p21 := -(y.p21 + y.p22)
    p22 := y.p22 }

/-- Admittance to scattering conversion, lines 67-71 of the source
(the formula shape is the same one as lines 56-60, applied to Y). -/
def yToS (y : ComplexTwoPort) : ComplexTwoPort :=
  { p11 := ((1 - y.p11) * (1 + y.p22) + y.p12 * y.p21) / delSY y
    p12 := -2 * y.p12 / delSY y
    p21 := -2 * y.p21 / delSY y
    p22 := ((1 + y.p11) * (1 - y.p22) + y.p12 * y.p21) / delSY y }

/-- Determinant del5, line 73: (1 - s11) * (1 - s22) - s12 * s21. -/
def delSZ (s : ComplexTwoPort) : Complex :=
  (1 - s.p11) * (1 - s.p22) - s.p12 * s.p21

/-- Scattering to impedance conversion (absolute, scaled by Z0),
lines 73-77 of the source. -/
def sToZ (Z0 : Complex) (s : ComplexTwoPort) : ComplexTwoPort :=
  { p11 := Z0 * ((1 + s.p11) * (1 - s.p22) + s.p12 * s.p21) / delSZ s
    p12 := Z0 * (2 * s.p12) / delSZ s
    p21 := Z0 * (2 * s.p21) / delSZ s
    p22 := Z0 * ((1 + s.p22) * (1 - s.p11) + s.p12 * s.p21) / delSZ s }

/-- Series inductor impedance Zind, line 79:
1j * 2 * pi * freq * M * L. -/
def zInd (freq M L : Real) : Complex :=
  Complex.I * 2 * (Real.pi : Complex) * (freq : Complex) * (M : Complex) * (L : Complex)

/-- Inductor injection, lines 80-83: Zind added to all four entries. -/
def addInd (freq M L : Real) (Z : ComplexTwoPort) : ComplexTwoPort :=
  { p11 := Z.p11 + zInd freq M L
    p12 := Z.p12 + zInd freq M L
    p21 := Z.p21 + zInd freq M L
    p22 := Z.p22 + zInd freq M L }

/-- Normalization by Z0, lines 85-88. -/
def normZ (Z0 : Complex) (Z : ComplexTwoPort) : ComplexTwoPort :=
  { p11 := Z.p11 / Z0
    p12 := Z.p12 / Z0
    p21 := Z.p21 / Z0
    p22 := Z.p22 / Z0 }

/-- Determinant del4, line 90: (z11 + 1) * (z22 + 1) - z12 * z21. -/
def delZS (z : ComplexTwoPort) : Complex :=
  (z.p11 + 1) * (z.p22 + 1) - z.p12 * z.p21

/-- Normalized impedance to scattering conversion, lines 90-94. -/
def zToS (z : ComplexTwoPort) : ComplexTwoPort :=
  { p11 := ((z.p11 - 1) * (z.p22 + 1) - z.p12 * z.p21) / delZS z
    p12 := 2 * z.p12 / delZS z
    p21 := 2 * z.p21 / delZS z
    p22 := ((z.p11 + 1) * (z.p22 - 1) - z.p12 * z.p21) / delZS z }

/-- np.angle(z, deg=True): the principal argument in degrees. -/
def angleDeg (z : Complex) : Real :=
  z.arg * 180 / Real.pi

/-- The complex common-source scattering matrix reconstructed from one
9-column input row, lines 51-54.  Column order of the file:
freq, |S11|, argS11, |S21|, argS21, |S12|, argS12, |S22|, argS22. -/
def sFromRow (row : List Real) : ComplexTwoPort :=
  { p11 := polarRect (row.getD 1 0) (row.getD 2 0)
    p12 := polarRect (row.getD 5 0) (row.getD 6 0)
    p21 := polarRect (row.getD 3 0) (row.getD 4 0)
    p22 := polarRect (row.getD 7 0) (row.getD 8 0) }

/-- Stages 2-4 of the chain: common-source S to common-gate S via
admittance and the topology transform, lines 56-71. -/
def cgS (s : ComplexTwoPort) : ComplexTwoPort :=
  yToS (topologyTransform (sToY s))

/-- Stage 5 of the chain: impedance domain with inductor injection,
lines 73-94. -/
def indS (Z0 : Complex) (freq M L : Real) (s : ComplexTwoPort) : ComplexTwoPort :=
  zToS (normZ Z0 (addInd freq M L (sToZ Z0 s)))

/-- Output row layout, lines 96-104: frequency then magnitude / phase
(degrees) of s11i, s21i, s12i, s22i. -/
def outRow (freq : Real) (s : ComplexTwoPort) : List Real :=
  [freq,
   Complex.abs s.p11, angleDeg s.p11,
   Complex.abs s.p21, angleDeg s.p21,
   Complex.abs s.p12, angleDeg s.p12,
   Complex.abs s.p22, angleDeg s.p22]

/-- One loop iteration of calcCommGateParam, lines 51-104: data[i] is
mapped to s[i] through the whole chain. -/
def procRow (Z0 M L : Real) (row : List Real) : List Real :=
  outRow (row.getD 0 0)
    (indS (Z0 : Complex) (row.getD 0 0) M L (cgS (sFromRow row)))

/-- The loop of calcCommGateParam, lines 47-105.  The source allocates
s = np.zeros((len(data), col)) and fills row i from data[i] alone, so
the loop is a map over the rows; process_file always passes col = 9 and
each iteration writes exactly the 9 entries of outRow. -/
def calcCommGateParam (Z0 M L : Real) (col : Nat) (data : List (List Real)) :
    List (List Real) :=
  data.map (procRow Z0 M L)

/-- The shorter chain of stages 1-4 and 6 only: polar input, common
source S to common gate S through admittance, polar output.  Used to
state what the pipeline reduces to at zero inductance. -/
def shortRow (row : List Real) : List Real :=
  outRow (row.getD 0 0) (cgS (sFromRow row))

/-- Whitespace splitting of one line as Python line.split() does it:
split on whitespace and drop empty tokens. -/
def lineTokens (l : String) : List String :=
  (l.split (fun c => c.isWhitespace)).filter (fun t => !(t == ""))

/-- parseSparamFile, lines 29-44, over the list of lines of the file.
The numeric conversion float(token) is abstracted as a function
pf : String -> Option Real (none models the ValueError branch that
skips the line).  A line is kept when it does not start with the
comment markers, every token converts, and the converted row has
exactly col fields. -/
def parseSparamFile (pf : String → Option Real) (col : Nat) :
    List String → List (List Real)
  | [] => []
  | l :: rest =>
    if l.startsWith "!" || l.startsWith "#" then
      parseSparamFile pf col rest
    else
      match (lineTokens l).mapM pf with
      | none => parseSparamFile pf col rest
      | some xs =>
        if xs.length = col then xs :: parseSparamFile pf col rest
        else parseSparamFile pf col rest

/-- process_file, lines 108-119, without the file I/O shell: Z0 = 50,
col = 9, M = 1e6, L = inductance * 1e-9, parse then convert. -/
def process_file (pf : String → Option Real) (inductance : Real)
    (lines : List String) : List (List Real) :=
  calcCommGateParam 50 1000000 (inductance * (1 / 1000000000)) 9
    (parseSparamFile pf 9 lines)

/-- The keep condition of parseSparamFile, stated as the spec words it:
no comment marker, every whitespace token numeric, exactly col fields. -/
def keepLine (pf : String → Option Real) (col : Nat) (l : String) : Bool :=
  !(l.startsWith "!") && !(l.startsWith "#") &&
    (match (lineTokens l).mapM pf with
     | none => false
     | some xs => xs.length == col)

/-- The numeric row a kept line contributes. -/
def parsedRow (pf : String → Option Real) (l : String) : List Real :=
  ((lineTokens l).mapM pf).getD []

/-- Scattering to admittance written exactly as section 4.1 of the spec
states it, for comparison with the source definition sToY. -/
def sToY_spec (s : ComplexTwoPort) : ComplexTwoPort :=
  { p11 := ((1 - s.p11) * (1 + s.p22) + s.p12 * s.p21) /
      ((1 + s.p11) * (1 + s.p22) - s.p12 * s.p21)
    p12 := -2 * s.p12 / ((1 + s.p11) * (1 + s.p22) - s.p12 * s.p21)
    p21 := -2 * s.p21 / ((1 + s.p11) * (1 + s.p22) - s.p12 * s.p21)
    p22 := ((1 + s.p11) * (1 - s.p22) + s.p12 * s.p21) /
      ((1 + s.p11) * (1 + s.p22) - s.p12 * s.p21) }

/-- The injected series impedance written exactly as section 4.3 of the
spec states it: j * 2 pi * frequency * M * L_henries with M = 1e6 and
L_henries the nanohenry input times 1e-9. -/
def zInd_spec (freq nH : Real) : Complex :=
  Complex.I * (2 * (Real.pi : Complex)) * (freq : Complex) *
    ((1000000 : Complex) * ((nH : Complex) * (1 / 1000000000)))

/-!  ## Claim theorems  -/

/-- C1 counterexample: the claim says applying the topology transform
twice recovers the original for no admittance two-port; at the concrete
input (1, 2, 3, 4) the double application does recover the input, so the
claim is false. -/
theorem topologyTransform_twice_id_at_1234 :
    topologyTransform (topologyTransform (ComplexTwoPort.mk 1 2 3 4)) =
      ComplexTwoPort.mk 1 2 3 4 := by
  simp only [topologyTransform, ComplexTwoPort.mk.injEq]
  norm_num

/-- C1 amended: applying the topology transform twice recovers the
original common-source admittance parameters for every two-port; the
transform is an involution. -/
theorem topologyTransform_involutive (y : ComplexTwoPort) :
    topologyTransform (topologyTransform y) = y := by
  simp only [topologyTransform]
  ext <;> ring

/-- C4: the scattering-to-admittance converter of the source computes
exactly the formulas of the spec: Y11 = ((1-S11)(1+S22)+S12 S21)/D,
Y12 = -2 S12/D, Y21 = -2 S21/D, Y22 = ((1+S11)(1-S22)+S12 S21)/D with
D = (1+S11)(1+S22) - S12 S21. -/
theorem sToY_matches_spec (s : ComplexTwoPort) : sToY s = sToY_spec s := rfl

/-- C5: with the values process_file passes (M = 1e6 and
L = inductance_nH * 1e-9), the inductor-injection stage adds the single
series impedance Zind = j 2 pi freq M L of the spec identically to all
four entries of the impedance matrix. -/
theorem addInd_matches_spec (freq nH : Real) (Z : ComplexTwoPort) :
    addInd freq 1000000 (nH * (1 / 1000000000)) Z =
      ComplexTwoPort.mk (Z.p11 + zInd_spec freq nH) (Z.p12 + zInd_spec freq nH)
        (Z.p21 + zInd_spec freq nH) (Z.p22 + zInd_spec freq nH) := by
  have h : zInd freq 1000000 (nH * (1 / 1000000000)) = zInd_spec freq nH := by
    simp only [zInd, zInd_spec]
    push_cast
    ring
  simp only [addInd, h]

/-- Helper: the determinant of the converted admittance parameters in
terms of the original determinant. -/
lemma delSY_sToY (s : ComplexTwoPort) (h : delSY s ≠ 0) :
    delSY (sToY s) = 4 / delSY s := by
  obtain ⟨a, b, c, d⟩ := s
  simp only [delSY, sToY] at h ⊢
  field_simp
  ring

/-- Helper: the admittance round trip is the identity off the
singularity. -/
lemma yToS_sToY_eq (s : ComplexTwoPort) (h : delSY s ≠ 0) :
    yToS (sToY s) = s := by
  have key := delSY_sToY s h
  have h4 : (4 : Complex) / delSY s ≠ 0 := div_ne_zero (by norm_num) h
  obtain ⟨a, b, c, d⟩ := s
  simp only [delSY] at h
  ext
  case p11 =>
    show ((1 - (sToY ⟨a, b, c, d⟩).p11) * (1 + (sToY ⟨a, b, c, d⟩).p22) +
        (sToY ⟨a, b, c, d⟩).p12 * (sToY ⟨a, b, c, d⟩).p21) / delSY (sToY ⟨a, b, c, d⟩) = a
    rw [key, div_eq_iff h4]
    simp only [sToY, delSY]
    field_simp
    ring
  case p12 =>
    show -2 * (sToY ⟨a, b, c, d⟩).p12 / delSY (sToY ⟨a, b, c, d⟩) = b
    rw [key, div_eq_iff h4]
    simp only [sToY, delSY]
    field_simp
    ring
  case p21 =>
    show -2 * (sToY ⟨a, b, c, d⟩).p21 / delSY (sToY ⟨a, b, c, d⟩) = c
    rw [key, div_eq_iff h4]
    simp only [sToY, delSY]
    field_simp
    ring
  case p22 =>
    show ((1 + (sToY ⟨a, b, c, d⟩).p11) * (1 - (sToY ⟨a, b, c, d⟩).p22) +
        (sToY ⟨a, b, c, d⟩).p12 * (sToY ⟨a, b, c, d⟩).p21) / delSY (sToY ⟨a, b, c, d⟩) = d
    rw [key, div_eq_iff h4]
    simp only [sToY, delSY]
    field_simp
    ring

/-- Helper: scaling by Z0 in sToZ and dividing it out again in normZ
cancel, leaving the normalized impedance parameters. -/
lemma normZ_sToZ (Z0 : Complex) (hZ0 : Z0 ≠ 0) (s : ComplexTwoPort) :
    normZ Z0 (sToZ Z0 s) =
      ComplexTwoPort.mk (((1 + s.p11) * (1 - s.p22) + s.p12 * s.p21) / delSZ s)
        ((2 * s.p12) / delSZ s) ((2 * s.p21) / delSZ s)
        (((1 + s.p22) * (1 - s.p11) + s.p12 * s.p21) / delSZ s) := by
  simp only [normZ, sToZ, ComplexTwoPort.mk.injEq]
  refine ⟨?_, ?_, ?_, ?_⟩ <;> (rw [mul_div_assoc]; exact mul_div_cancel_left₀ _ hZ0)

/-- Helper: determinant del4 of the normalized common-gate impedance in
terms of del5. -/
lemma delZS_normZ_sToZ (Z0 : Complex) (hZ0 : Z0 ≠ 0) (s : ComplexTwoPort)
    (h : delSZ s ≠ 0) : delZS (normZ Z0 (sToZ Z0 s)) = 4 / delSZ s := by
  rw [normZ_sToZ Z0 hZ0 s]
  obtain ⟨a, b, c, d⟩ := s
  simp only [delZS, delSZ] at h ⊢
  field_simp
  ring

/-- Helper: the impedance round trip (through the Z0 scaling and back)
is the identity off the singularity. -/
lemma zToS_normZ_sToZ_eq (Z0 : Complex) (hZ0 : Z0 ≠ 0) (s : ComplexTwoPort)
    (h : delSZ s ≠ 0) : zToS (normZ Z0 (sToZ Z0 s)) = s := by
  rw [normZ_sToZ Z0 hZ0 s]
  have h4 : (4 : Complex) / delSZ s ≠ 0 := div_ne_zero (by norm_num) h
  have key : delZS (ComplexTwoPort.mk (((1 + s.p11) * (1 - s.p22) + s.p12 * s.p21) / delSZ s)
      ((2 * s.p12) / delSZ s) ((2 * s.p21) / delSZ s)
      (((1 + s.p22) * (1 - s.p11) + s.p12 * s.p21) / delSZ s)) = 4 / delSZ s := by
    rw [← normZ_sToZ Z0 hZ0 s]
    exact delZS_normZ_sToZ Z0 hZ0 s h
  obtain ⟨a, b, c, d⟩ := s
  simp only [delSZ] at h
  ext
  case p11 =>
    simp only [zToS]
    rw [key, div_eq_iff h4]
    simp only [delSZ]
    field_simp
    ring
  case p12 =>
    simp only [zToS]
    rw [key, div_eq_iff h4]
    simp only [delSZ]
    field_simp
    ring
  case p21 =>
    simp only [zToS]
    rw [key, div_eq_iff h4]
    simp only [delSZ]
    field_simp
    ring
  case p22 =>
    simp only [zToS]
    rw [key, div_eq_iff h4]
    simp only [delSZ]
    field_simp
    ring

/-- C2: for a two-port whose conversion determinants do not vanish, the
scattering-admittance round trip of lines 56-60 / 67-71 and the
scattering-impedance round trip of lines 73-77 / 85-94 (absolute Z
scaled by Z0 on the way out, normalized by Z0 on the way back) both
return the original four parameters exactly. -/
theorem conversion_round_trips (s : ComplexTwoPort) (Z0 : Complex) (hZ0 : Z0 ≠ 0)
    (h1 : delSY s ≠ 0) (h2 : delSY (sToY s) ≠ 0)
    (h3 : delSZ s ≠ 0) (h4 : delZS (normZ Z0 (sToZ Z0 s)) ≠ 0) :
    yToS (sToY s) = s ∧ zToS (normZ Z0 (sToZ Z0 s)) = s :=
  ⟨yToS_sToY_eq s h1, zToS_normZ_sToZ_eq Z0 hZ0 s h3⟩

/-- C2 witness: the round trips at the concrete two-port (0, 0, 0, 0)
with Z0 = 50, where the determinants are 1, 4, 1 and 4. -/
theorem conversion_round_trips_witness :
    yToS (sToY (ComplexTwoPort.mk 0 0 0 0)) = ComplexTwoPort.mk 0 0 0 0 ∧
      zToS (normZ 50 (sToZ 50 (ComplexTwoPort.mk 0 0 0 0))) =
        ComplexTwoPort.mk 0 0 0 0 :=
  conversion_round_trips (ComplexTwoPort.mk 0 0 0 0) 50 (by norm_num)
    (by norm_num [delSY]) (by norm_num [delSY, sToY])
    (by norm_num [delSZ]) (by norm_num [delZS, normZ, sToZ, delSZ])

/-- Helper: with L = 0 the injected series impedance vanishes and the
inductor stage is the identity. -/
lemma addInd_zero (freq M : Real) (Z : ComplexTwoPort) :
    addInd freq M 0 Z = Z := by
  have hz : zInd freq M 0 = 0 := by
    simp [zInd]
  simp [addInd, hz]

/-- C3: at inductance 0 (so L = 0 * 1e-9 = 0 in process_file) the full
per-record chain with Z0 = 50 equals the shorter chain consisting of
scattering to admittance, topology transform and admittance to
scattering, for every record whose determinants del6, del2 and del5 do
not vanish: the whole impedance stage 5 is the identity. -/
theorem zero_inductance_pipeline (row : List Real) (M : Real)
    (h1 : delSY (sFromRow row) ≠ 0)
    (h2 : delSY (topologyTransform (sToY (sFromRow row))) ≠ 0)
    (h3 : delSZ (cgS (sFromRow row)) ≠ 0) :
    procRow 50 M 0 row = shortRow row := by
  unfold procRow shortRow indS
  rw [addInd_zero]
  rw [zToS_normZ_sToZ_eq _ (by norm_num) _ h3]

/-- C3 witness: the record (1, 0, 0, 0, 0, 0, 0, 0, 0), whose chain has
determinants 1, 5 and 4 / 5. -/
theorem zero_inductance_pipeline_witness :
    procRow 50 1000000 0 [1, 0, 0, 0, 0, 0, 0, 0, 0] =
      shortRow [1, 0, 0, 0, 0, 0, 0, 0, 0] :=
  zero_inductance_pipeline [1, 0, 0, 0, 0, 0, 0, 0, 0] 1000000
    (by norm_num [delSY, sFromRow, polarRect, List.getD])
    (by norm_num [delSY, topologyTransform, sToY, sFromRow, polarRect, List.getD])
    (by norm_num [delSZ, cgS, yToS, sToY, topologyTransform, delSY, sFromRow,
      polarRect, List.getD])

/-- Helper: the first entry of a processed row is the frequency entry of
the input row, line 96. -/
lemma procRow_freq (Z0 M L : Real) (row : List Real) :
    (procRow Z0 M L row).getD 0 0 = row.getD 0 0 := rfl

/-- C7: the pipeline loop of lines 50-104 is a per-record map: the
output has one row per input row in the same order, output row i is
procRow of input row i alone, output row i keeps the frequency of input
row i, and permuting the input rows permutes the output rows by the
same permutation. -/
theorem calc_per_record_map (Z0 M L : Real) (col : Nat) (data : List (List Real)) :
    (calcCommGateParam Z0 M L col data).length = data.length ∧
    (∀ i, i < data.length →
      (calcCommGateParam Z0 M L col data).getD i [] =
        procRow Z0 M L (data.getD i [])) ∧
    (∀ i, i < data.length →
      ((calcCommGateParam Z0 M L col data).getD i []).getD 0 0 =
        (data.getD i []).getD 0 0) ∧
    (∀ data2 : List (List Real), data.Perm data2 →
      (calcCommGateParam Z0 M L col data).Perm
        (calcCommGateParam Z0 M L col data2)) := by
  have hget : ∀ i, i < data.length →
      (calcCommGateParam Z0 M L col data).getD i [] =
        procRow Z0 M L (data.getD i []) := by
    intro i hi
    simp [calcCommGateParam, List.getD_eq_getElem?_getD, List.getElem?_map,
      List.getElem?_eq_getElem hi]
  refine ⟨by simp [calcCommGateParam], hget, ?_, ?_⟩
  · intro i hi
    rw [hget i hi, procRow_freq]
  · intro data2 hperm
    exact hperm.map (procRow Z0 M L)

/-- C7 witness: a two-record input, its second row, and the swap of the
two records. -/
theorem calc_per_record_map_witness :
    (calcCommGateParam 50 1000000 0 9
        [[1, 0, 0, 0, 0, 0, 0, 0, 0], [2, 0, 0, 0, 0, 0, 0, 0, 0]]).getD 1 [] =
      procRow 50 1000000 0
        (([[1, 0, 0, 0, 0, 0, 0, 0, 0], [2, 0, 0, 0, 0, 0, 0, 0, 0]] :
          List (List Real)).getD 1 []) ∧
    ((calcCommGateParam 50 1000000 0 9
        [[1, 0, 0, 0, 0, 0, 0, 0, 0], [2, 0, 0, 0, 0, 0, 0, 0, 0]]).getD 1 []).getD 0 0 =
      (([[1, 0, 0, 0, 0, 0, 0, 0, 0], [2, 0, 0, 0, 0, 0, 0, 0, 0]] :
          List (List Real)).getD 1 []).getD 0 0 ∧
    (calcCommGateParam 50 1000000 0 9
        [[1, 0, 0, 0, 0, 0, 0, 0, 0], [2, 0, 0, 0, 0, 0, 0, 0, 0]]).Perm
      (calcCommGateParam 50 1000000 0 9
        [[2, 0, 0, 0, 0, 0, 0, 0, 0], [1, 0, 0, 0, 0, 0, 0, 0, 0]]) := by
  obtain ⟨hlen, hget, hfreq, hperm⟩ := calc_per_record_map 50 1000000 0 9
    [[1, 0, 0, 0, 0, 0, 0, 0, 0], [2, 0, 0, 0, 0, 0, 0, 0, 0]]
  exact ⟨hget 1 (by norm_num), hfreq 1 (by norm_num),
    hperm _ (List.Perm.swap _ _ _)⟩

/-- Helper: np.angle in degrees always lies in (-180, 180], because the
principal argument lies in (-pi, pi]. -/
lemma angleDeg_bounds (z : Complex) : -180 < angleDeg z ∧ angleDeg z ≤ 180 := by
  have hπ : (0 : Real) < Real.pi := Real.pi_pos
  constructor
  · rw [angleDeg, lt_div_iff₀ hπ]
    have h := Complex.neg_pi_lt_arg z
    nlinarith
  · rw [angleDeg, div_le_iff₀ hπ]
    have h := Complex.arg_le_pi z
    nlinarith

/-- C8: every output row has its four magnitude entries nonnegative and
its four phase entries in the interval (-180, 180]. -/
theorem output_ranges (Z0 M L : Real) (row : List Real) :
    (0 ≤ (procRow Z0 M L row).getD 1 0 ∧
     0 ≤ (procRow Z0 M L row).getD 3 0 ∧
     0 ≤ (procRow Z0 M L row).getD 5 0 ∧
     0 ≤ (procRow Z0 M L row).getD 7 0) ∧
    ((-180 < (procRow Z0 M L row).getD 2 0 ∧ (procRow Z0 M L row).getD 2 0 ≤ 180) ∧
     (-180 < (procRow Z0 M L row).getD 4 0 ∧ (procRow Z0 M L row).getD 4 0 ≤ 180) ∧
     (-180 < (procRow Z0 M L row).getD 6 0 ∧ (procRow Z0 M L row).getD 6 0 ≤ 180) ∧
     (-180 < (procRow Z0 M L row).getD 8 0 ∧ (procRow Z0 M L row).getD 8 0 ≤ 180)) := by
  simp only [procRow, outRow, List.getD_cons_zero, List.getD_cons_succ]
  exact ⟨⟨Complex.abs.nonneg _, Complex.abs.nonneg _, Complex.abs.nonneg _,
      Complex.abs.nonneg _⟩,
    angleDeg_bounds _, angleDeg_bounds _, angleDeg_bounds _, angleDeg_bounds _⟩

/-- C9: the ingestion step keeps exactly the lines that do not start
with the two comment markers, whose whitespace tokens all convert to
numbers, and whose converted row has exactly col fields, in input
order; every other line is dropped and the function stays total (the
ValueError branch of lines 41-43 is the skip, never an error). -/
theorem parse_keeps_exactly (pf : String → Option Real) (col : Nat)
    (lines : List String) :
    parseSparamFile pf col lines =
      (lines.filter (keepLine pf col)).map (parsedRow pf) := by
  induction lines with
  | nil => rfl
  | cons l rest ih =>
    by_cases hc : (l.startsWith "!" || l.startsWith "#") = true
    · have hk : keepLine pf col l = false := by
        rcases Bool.or_eq_true_iff.mp hc with h | h <;>
          simp [keepLine, h]
      rw [parseSparamFile, if_pos hc, ih, List.filter_cons, hk]
      simp
    · have hc1 : l.startsWith "!" = false := by
        cases hx : l.startsWith "!" with
        | false => rfl
        | true => exact absurd (Bool.or_eq_true_iff.mpr (Or.inl hx)) hc
      have hc2 : l.startsWith "#" = false := by
        cases hx : l.startsWith "#" with
        | false => rfl
        | true => exact absurd (Bool.or_eq_true_iff.mpr (Or.inr hx)) hc
      cases hm : (lineTokens l).mapM pf with
      | none =>
        have hk : keepLine pf col l = false := by
          simp only [keepLine]
          rw [hm]
          show (!(l.startsWith "!") && !(l.startsWith "#") && false) = false
          simp
        rw [parseSparamFile, if_neg hc, hm]
        show parseSparamFile pf col rest = _
        rw [ih, List.filter_cons, hk]
        simp
      | some xs =>
        by_cases hlen : xs.length = col
        · have hk : keepLine pf col l = true := by
            simp only [keepLine]
            rw [hm]
            show (!(l.startsWith "!") && !(l.startsWith "#") &&
              (xs.length == col)) = true
            simp [hc1, hc2, hlen]
          have hrow : parsedRow pf l = xs := by
            simp only [parsedRow]
            rw [hm]
            rfl
          rw [parseSparamFile, if_neg hc, hm]
          show (if xs.length = col then xs :: parseSparamFile pf col rest
            else parseSparamFile pf col rest) = _
          rw [if_pos hlen, ih, List.filter_cons, hk]
          simp [hrow]
        · have hk : keepLine pf col l = false := by
            simp only [keepLine]
            rw [hm]
            show (!(l.startsWith "!") && !(l.startsWith "#") &&
              (xs.length == col)) = false
            simp [hlen]
          rw [parseSparamFile, if_neg hc, hm]
          show (if xs.length = col then xs :: parseSparamFile pf col rest
            else parseSparamFile pf col rest) = _
          rw [if_neg hlen, ih, List.filter_cons, hk]
          simp

/-- C10: an input that yields zero data rows makes the whole pipeline
return zero output rows: the loop body is never entered and process_file
succeeds with an empty result. -/
theorem empty_parse_empty_output (pf : String → Option Real) (ind : Real)
    (lines : List String) (h : parseSparamFile pf 9 lines = []) :
    process_file pf ind lines = [] := by
  simp [process_file, calcCommGateParam, h]

/-- C10 witness: the empty input, which parses to zero data rows. -/
theorem empty_parse_empty_output_witness :
    process_file (fun _ => none) 0 [] = [] :=
  empty_parse_empty_output (fun _ => none) 0 [] rfl

end
